import Mathlib

/-!
Verification of the threejs-earth repository: a shallow embedding in Lean 4
of the hex-color parser, the background-aspect cropping routine, the run-loop
startup sequencing, the per-frame rotation and shadow-offset updates, and the
atmosphere / cloud-shadow fragment-shader computations, together with theorems
settling the specification's claims about them.

Real numbers of the JavaScript source are modelled as rationals; texture
sampling and the GLSL pow builtin are modelled as function parameters.
-/

namespace ThreejsEarth

/-! ## Hex-color parsing (common-utils hexToRgb) -/

/-- RGB triple returned by hexToRgb.  Components are rationals so the same
structure covers the byte-valued mode and the 0..1-normalised shader mode. -/
structure Rgb where
  r : ℚ
  g : ℚ
  b : ℚ
deriving DecidableEq, Repr

/-- A character matched by the regex class occurring in hexToRgb, namely
a decimal digit or a hexadecimal letter in either case (the regex carries
the case-insensitive flag). -/
def isHexDigit (c : Char) : Bool :=
  ('0' ≤ c && c ≤ '9') || ('a' ≤ c && c ≤ 'f') || ('A' ≤ c && c ≤ 'F')

/-- Numeric value of a single hexadecimal digit, as parseInt assigns it. -/
def hexDigitVal (c : Char) : ℕ :=
  if '0' ≤ c && c ≤ '9' then c.toNat - '0'.toNat
  else if 'a' ≤ c && c ≤ 'f' then c.toNat - 'a'.toNat + 10
  else if 'A' ≤ c && c ≤ 'F' then c.toNat - 'A'.toNat + 10
  else 0

/-- parseInt(group, 16) for one two-digit capture group of the regex. -/
def parseHexPair (hi lo : Char) : ℕ := 16 * hexDigitVal hi + hexDigitVal lo

/-- The optional leading '#' of the regex pattern: drop it when present. -/
def stripHash (s : List Char) : List Char :=
  if s.head? = some '#' then s.tail else s

/-- The six captured digit characters of a successful regex match. -/
structure HexDigits where
  d1 : Char
  d2 : Char
  d3 : Char
  d4 : Char
  d5 : Char
  d6 : Char
deriving DecidableEq, Repr

/-- Matching the remainder of the pattern: exactly six hex-digit characters
followed by the end of the string. -/
def sixHex (t : List Char) : Option HexDigits :=
  match t with
  | [a, b, c, d, e, f] =>
    if isHexDigit a && isHexDigit b && isHexDigit c &&
       isHexDigit d && isHexDigit e && isHexDigit f then
      some ⟨a, b, c, d, e, f⟩
    else none
  | _ => none

/-- exec of the source regex (optional '#', then three two-hex-digit groups,
anchored at both ends); the three groups are returned as six digit chars. -/
def hexRegexExec (s : List Char) : Option HexDigits :=
  sixHex (stripHash s)

/-- hexToRgb from common-utils: regex-match the input, return null (none) on
mismatch, else the three parsed byte values, divided by 255 when forShaders. -/
def hexToRgb (s : List Char) (forShaders : Bool) : Option Rgb :=
  match hexRegexExec s with
  | none => none
  | some g =>
    if forShaders then
      some ⟨(parseHexPair g.d1 g.d2 : ℚ) / 255,
            (parseHexPair g.d3 g.d4 : ℚ) / 255,
            (parseHexPair g.d5 g.d6 : ℚ) / 255⟩
    else
      some ⟨(parseHexPair g.d1 g.d2 : ℚ),
            (parseHexPair g.d3 g.d4 : ℚ),
            (parseHexPair g.d5 g.d6 : ℚ)⟩

/-- The shape of inputs accepted by the source regex, stated from the claim's
wording: an optional leading '#' followed by exactly six hex digits. -/
def MatchesHexPattern (s : List Char) : Prop :=
  ∃ a b c d e f : Char,
    (s = [a, b, c, d, e, f] ∨ s = ['#', a, b, c, d, e, f]) ∧
    isHexDigit a = true ∧ isHexDigit b = true ∧ isHexDigit c = true ∧
    isHexDigit d = true ∧ isHexDigit e = true ∧ isHexDigit f = true

theorem sixHex_eq_some {t : List Char} {g : HexDigits} (h : sixHex t = some g) :
    t = [g.d1, g.d2, g.d3, g.d4, g.d5, g.d6] ∧
    isHexDigit g.d1 = true ∧ isHexDigit g.d2 = true ∧ isHexDigit g.d3 = true ∧
    isHexDigit g.d4 = true ∧ isHexDigit g.d5 = true ∧ isHexDigit g.d6 = true := by
  unfold sixHex at h
  split at h
  · split at h
    · cases h
      simp_all [Bool.and_eq_true]
    · exact absurd h (by simp)
  · exact absurd h (by simp)

theorem hexDigit_ne_hash {c : Char} (h : isHexDigit c = true) : c ≠ '#' := by
  intro hc
  subst hc
  exact absurd h (by decide)

/-- C6: for every valid 6-hex-digit string, with or without a leading '#',
hexToRgb returns the exact byte values parsed from the three two-digit groups
when forShaders is false, and those byte values divided by 255 when true. -/
theorem hexToRgb_valid_parses (p : List Char) (a b c d e f : Char)
    (hp : p = [] ∨ p = ['#'])
    (ha : isHexDigit a = true) (hb : isHexDigit b = true)
    (hc : isHexDigit c = true) (hd : isHexDigit d = true)
    (he : isHexDigit e = true) (hf : isHexDigit f = true) :
    hexToRgb (p ++ [a, b, c, d, e, f]) false =
      some ⟨(parseHexPair a b : ℚ), (parseHexPair c d : ℚ), (parseHexPair e f : ℚ)⟩ ∧
    hexToRgb (p ++ [a, b, c, d, e, f]) true =
      some ⟨(parseHexPair a b : ℚ) / 255, (parseHexPair c d : ℚ) / 255,
            (parseHexPair e f : ℚ) / 255⟩ := by
  have hane : a ≠ '#' := hexDigit_ne_hash ha
  rcases hp with rfl | rfl
  · simp [hexToRgb, hexRegexExec, stripHash, sixHex, hane, ha, hb, hc, hd, he, hf]
  · simp [hexToRgb, hexRegexExec, stripHash, sixHex, ha, hb, hc, hd, he, hf]

/-- Witness for C6 at the spec's example: "#FF8800" parses to (255, 136, 0),
and to (1, 136/255, 0) in shader mode. -/
theorem hexToRgb_valid_parses_witness :
    hexToRgb ['#', 'F', 'F', '8', '8', '0', '0'] false = some ⟨255, 136, 0⟩ ∧
    hexToRgb ['#', 'F', 'F', '8', '8', '0', '0'] true = some ⟨1, 136 / 255, 0⟩ := by
  have h := hexToRgb_valid_parses ['#'] 'F' 'F' '8' '8' '0' '0' (Or.inr rfl)
    (by decide) (by decide) (by decide) (by decide) (by decide) (by decide)
  have hFF : parseHexPair 'F' 'F' = 255 := by decide
  have h88 : parseHexPair '8' '8' = 136 := by decide
  have h00 : parseHexPair '0' '0' = 0 := by decide
  rw [hFF, h88, h00] at h
  refine ⟨h.1.trans ?_, h.2.trans ?_⟩ <;> norm_num

/-- C7: every input not matching the pattern (wrong length, non-hex character,
anything but an optional '#' followed by six hex digits) yields none, in both
modes; hexToRgb is a total function, so it never throws. -/
theorem hexToRgb_malformed_none (s : List Char) (forShaders : Bool)
    (h : ¬ MatchesHexPattern s) : hexToRgb s forShaders = none := by
  cases hex : hexRegexExec s with
  | none => simp [hexToRgb, hex]
  | some g =>
    exfalso
    apply h
    unfold hexRegexExec at hex
    obtain ⟨ht, h1, h2, h3, h4, h5, h6⟩ := sixHex_eq_some hex
    refine ⟨g.d1, g.d2, g.d3, g.d4, g.d5, g.d6, ?_, h1, h2, h3, h4, h5, h6⟩
    unfold stripHash at ht
    split at ht
    · rename_i hhead
      cases s with
      | nil => simp at hhead
      | cons x xs =>
        simp only [List.head?] at hhead
        cases hhead
        right
        simp only [List.tail] at ht
        rw [ht]
    · left
      exact ht

/-- Witness for C7: the five-character input "12345" is malformed and yields
none. -/
theorem hexToRgb_malformed_none_witness :
    hexToRgb ['1', '2', '3', '4', '5'] false = none := by
  apply hexToRgb_malformed_none
  rintro ⟨a, b, c, d, e, f, hform, -⟩
  rcases hform with h | h <;> simp at h

/-! ## Per-frame rotation and shadow-offset updates (index.js updateScene) -/

/-- Truncation toward zero, as the JavaScript remainder operator uses. -/
def jsTrunc (x : ℚ) : ℤ :=
  if 0 ≤ x then ⌊x⌋ else -⌊-x⌋

/-- The JavaScript expression x % 1. -/
def jsMod1 (x : ℚ) : ℚ := x - jsTrunc x

/-- Angular displacement applied to the earth mesh in one frame:
this.earth.rotateY(interval * 0.005 * params.speedFactor). -/
def earthRotationDelta (interval speedFactor : ℚ) : ℚ :=
  interval * (5 / 1000) * speedFactor

/-- Angular displacement applied to the cloud mesh in one frame:
this.clouds.rotateY(interval * 0.01 * params.speedFactor). -/
def cloudsRotationDelta (interval speedFactor : ℚ) : ℚ :=
  interval * (1 / 100) * speedFactor

/-- One frame's update of the uv_xOffset uniform, from updateScene:
shader.uniforms.uv_xOffset.value += offset % 1, where offset stands for
the frame's increment (interval * 0.005 * speedFactor) / (2 pi). -/
def uvXOffsetStep (value offset : ℚ) : ℚ :=
  value + jsMod1 offset

/-- The uv_xOffset uniform after running updateScene once per entry of the
given list of per-frame increments, starting from its initial value 0. -/
def uvXOffsetAfter (offsets : List ℚ) : ℚ :=
  offsets.foldl uvXOffsetStep 0

theorem uvXOffsetAfter_foldl (v : ℚ) (offsets : List ℚ) :
    offsets.foldl uvXOffsetStep v = v + (offsets.map jsMod1).sum := by
  induction offsets generalizing v with
  | nil => simp
  | cons o os ih =>
    simp only [List.foldl_cons, List.map_cons, List.sum_cons, ih]
    simp [uvXOffsetStep]
    ring

theorem jsMod1_of_pos {o : ℚ} (h : 0 < o) : jsMod1 o = Int.fract o := by
  unfold jsMod1 jsTrunc
  rw [if_pos (le_of_lt h)]
  rfl

theorem map_jsMod1_sum (os : List ℚ) (h : ∀ o ∈ os, 0 < o) :
    (os.map jsMod1).sum = os.sum - ((os.map Int.floor).sum : ℤ) := by
  induction os with
  | nil => simp
  | cons o t ih =>
    have ho : 0 < o := h o (by simp)
    have ht : ∀ x ∈ t, 0 < x := fun x hx => h x (by simp [hx])
    simp only [List.map_cons, List.sum_cons, ih ht, jsMod1_of_pos ho, Int.fract]
    push_cast
    ring

/-- C1 counterexample: two frames with the positive increment 3/5 each leave
uv_xOffset at 6/5, outside [0,1) and different from the sum of the increments
reduced modulo 1; the code adds each increment reduced modulo 1 but never
reduces the accumulated uniform. -/
theorem uvXOffset_escapes_unit_interval :
    (0 < (3 / 5 : ℚ)) ∧
    uvXOffsetAfter [3 / 5, 3 / 5] = 6 / 5 ∧
    ¬ uvXOffsetAfter [3 / 5, 3 / 5] < 1 ∧
    uvXOffsetAfter [3 / 5, 3 / 5] ≠ jsMod1 (3 / 5 + 3 / 5) := by
  have e1 : jsMod1 (3 / 5 : ℚ) = 3 / 5 := by
    rw [jsMod1_of_pos (by norm_num)]
    rw [Int.fract_eq_self.mpr (by norm_num)]
  have h1 : uvXOffsetAfter [3 / 5, 3 / 5] = 6 / 5 := by
    show uvXOffsetStep (uvXOffsetStep 0 (3 / 5)) (3 / 5) = 6 / 5
    rw [uvXOffsetStep, uvXOffsetStep, e1]
    norm_num
  have h2 : jsMod1 (3 / 5 + 3 / 5 : ℚ) = 1 / 5 := by
    rw [show (3 / 5 + 3 / 5 : ℚ) = 6 / 5 by norm_num]
    rw [jsMod1_of_pos (by norm_num)]
    rw [show (6 / 5 : ℚ) = 1 / 5 + (1 : ℤ) by push_cast; ring, Int.fract_add_int]
    rw [Int.fract_eq_self.mpr (by norm_num)]
  refine ⟨by norm_num, h1, by rw [h1]; norm_num, by rw [h1, h2]; norm_num⟩

/-- C1 as amended: for positive per-frame increments the uniform is advanced
by each increment reduced modulo 1, so it stays nonnegative and is congruent
modulo 1 to the sum of the increments, but the accumulated value itself is
never reduced modulo 1 and need not stay below 1. -/
theorem uvXOffset_congruent_mod_one (offsets : List ℚ)
    (h : ∀ o ∈ offsets, 0 < o) :
    0 ≤ uvXOffsetAfter offsets ∧
    Int.fract (uvXOffsetAfter offsets) = Int.fract offsets.sum := by
  have hfold : uvXOffsetAfter offsets = (offsets.map jsMod1).sum := by
    simp [uvXOffsetAfter, uvXOffsetAfter_foldl]
  constructor
  · rw [hfold]
    apply List.sum_nonneg
    intro x hx
    obtain ⟨o, ho, rfl⟩ := List.mem_map.mp hx
    rw [jsMod1_of_pos (h o ho)]
    exact Int.fract_nonneg o
  · rw [hfold, map_jsMod1_sum offsets h, Int.fract_sub_int]

/-- Witness for the amended C1 at the concrete increment list [3/5, 3/5]. -/
theorem uvXOffset_congruent_mod_one_witness :
    0 ≤ uvXOffsetAfter [3 / 5, 3 / 5] ∧
    Int.fract (uvXOffsetAfter [3 / 5, 3 / 5]) = Int.fract (([3 / 5, 3 / 5] : List ℚ).sum) :=
  uvXOffset_congruent_mod_one [3 / 5, 3 / 5] (by
    intro o ho
    simp only [List.mem_cons, List.mem_singleton, List.not_mem_nil, or_false] at ho
    rcases ho with h | h <;> rw [h] <;> norm_num)

/-- C4: in every frame and for every positive speedFactor, the cloud mesh's
angular displacement is exactly twice the earth mesh's. -/
theorem clouds_rotation_twice_earth (interval speedFactor : ℚ)
    (_hpos : 0 < speedFactor) :
    cloudsRotationDelta interval speedFactor =
      2 * earthRotationDelta interval speedFactor := by
  unfold cloudsRotationDelta earthRotationDelta
  ring

/-- Witness for C4 at interval 1/60 and speedFactor 2. -/
theorem clouds_rotation_twice_earth_witness :
    cloudsRotationDelta (1 / 60) 2 = 2 * earthRotationDelta (1 / 60) 2 :=
  clouds_rotation_twice_earth (1 / 60) 2 (by norm_num)

/-! ## Atmosphere fragment shader (shaders/fragment.glsl) -/

/-- A GLSL vec3 over the rational model of GLSL floats. -/
structure Vec3 where
  x : ℚ
  y : ℚ
  z : ℚ
deriving DecidableEq, Repr

/-- A GLSL vec4 (rgba output of a fragment shader). -/
structure Vec4 where
  x : ℚ
  y : ℚ
  z : ℚ
  w : ℚ
deriving DecidableEq, Repr

/-- GLSL dot on vec3. -/
def dot3 (a b : Vec3) : ℚ :=
  a.x * b.x + a.y * b.y + a.z * b.z

/-- Main body of the atmosphere fragment shader, translated statement by
statement from the source.  The GLSL pow builtin (whose exponent is the
runtime uniform atmPowFactor) is passed in as a function parameter. -/
def atmosphereFragment (glslPow : ℚ → ℚ → ℚ) (vNormal eyeVector : Vec3)
    (atmOpacity atmPowFactor atmMultiplier : ℚ) : Vec4 :=
  let dotP := dot3 vNormal eyeVector
  let factor := glslPow dotP atmPowFactor * atmMultiplier
  let atmColor : Vec3 := ⟨35 / 100 + dotP / (45 / 10), 35 / 100 + dotP / (45 / 10), 1⟩
  ⟨atmColor.x * factor, atmColor.y * factor, atmColor.z * factor, atmOpacity * factor⟩

/-- The spec's description of the second shader stage: dotP = dot(normal,
eyeVector), factor = dotP^power times the multiplier, tint
(0.35 + dotP/4.5, 0.35 + dotP/4.5, 1.0), output (tint, opacity) scaled by
factor. -/
def specAtmosphereOutput (glslPow : ℚ → ℚ → ℚ) (normal eyeVector : Vec3)
    (opacity power multiplier : ℚ) : Vec4 :=
  let dotP := dot3 normal eyeVector
  let factor := glslPow dotP power * multiplier
  ⟨(35 / 100 + dotP / (9 / 2)) * factor,
   (35 / 100 + dotP / (9 / 2)) * factor,
   1 * factor,
   opacity * factor⟩

/-- C2: for every fragment (every normal and eye vector) and all uniform
values, the atmosphere fragment shader computes exactly the output the spec
describes. -/
theorem atmosphereFragment_matches_spec (glslPow : ℚ → ℚ → ℚ)
    (vNormal eyeVector : Vec3) (atmOpacity atmPowFactor atmMultiplier : ℚ) :
    atmosphereFragment glslPow vNormal eyeVector atmOpacity atmPowFactor atmMultiplier =
      specAtmosphereOutput glslPow vNormal eyeVector atmOpacity atmPowFactor atmMultiplier := by
  unfold atmosphereFragment specAtmosphereOutput
  norm_num

/-! ## Cloud-shadow block spliced into the surface shader (index.js) -/

/-- The statement diffuseColor.rgb *= max(1.0 - cloudsMapValue, 0.2) of the
injected fragment code, where cloudsMapValue is the red channel of the cloud
texture sampled at vec2(vMapUv.x - uv_xOffset, vMapUv.y).  The texture's red
channel is passed in as a sample function. -/
def shadowedDiffuse (tCloudsR : ℚ → ℚ → ℚ) (vMapUvX vMapUvY uvXOffset : ℚ)
    (diffuseColor : Vec3) : Vec3 :=
  let cloudsMapValue := tCloudsR (vMapUvX - uvXOffset) vMapUvY
  ⟨diffuseColor.x * max (1 - cloudsMapValue) (2 / 10),
   diffuseColor.y * max (1 - cloudsMapValue) (2 / 10),
   diffuseColor.z * max (1 - cloudsMapValue) (2 / 10)⟩

/-- The atmospheric-tint statements that follow in the injected code:
intensity = 1.4 - dot(geometryNormal, vec3(0,0,1)), atmosphere =
vec3(0.3, 0.6, 1.0) * pow(intensity, 5.0), diffuseColor.rgb += atmosphere. -/
def atmosphereAdd (geometryNormal : Vec3) (diffuseColor : Vec3) : Vec3 :=
  let intensity := 14 / 10 - dot3 geometryNormal ⟨0, 0, 1⟩
  ⟨diffuseColor.x + 3 / 10 * intensity ^ 5,
   diffuseColor.y + 6 / 10 * intensity ^ 5,
   diffuseColor.z + 1 * intensity ^ 5⟩

/-- The whole injected diffuse-color computation, in source order. -/
def cloudShadowBlock (tCloudsR : ℚ → ℚ → ℚ) (vMapUvX vMapUvY uvXOffset : ℚ)
    (geometryNormal diffuseColor : Vec3) : Vec3 :=
  atmosphereAdd geometryNormal (shadowedDiffuse tCloudsR vMapUvX vMapUvY uvXOffset diffuseColor)

/-- The spec's description of the darkening stage: sample the cloud texture
at (surfaceUV.x - offsetUniform, surfaceUV.y), take the red channel as
cloudDensity, multiply the diffuse color by max(1 - cloudDensity, 0.2). -/
def specCloudShadowedDiffuse (cloudRed : ℚ → ℚ → ℚ)
    (surfaceUVx surfaceUVy offsetUniform : ℚ) (diffuse : Vec3) : Vec3 :=
  let cloudDensity := cloudRed (surfaceUVx - offsetUniform) surfaceUVy
  let k := max (1 - cloudDensity) (2 / 10)
  ⟨diffuse.x * k, diffuse.y * k, diffuse.z * k⟩

/-- C3: for every fragment, the patched shader's darkening stage equals the
spec's description, and the darkening factor it multiplies into the diffuse
color never falls below 0.2. -/
theorem cloudShadow_darkening_correct (tCloudsR : ℚ → ℚ → ℚ)
    (vMapUvX vMapUvY uvXOffset : ℚ) (diffuseColor : Vec3) :
    shadowedDiffuse tCloudsR vMapUvX vMapUvY uvXOffset diffuseColor =
      specCloudShadowedDiffuse tCloudsR vMapUvX vMapUvY uvXOffset diffuseColor ∧
    (2 / 10 : ℚ) ≤ max (1 - tCloudsR (vMapUvX - uvXOffset) vMapUvY) (2 / 10) :=
  ⟨rfl, le_max_right _ _⟩

/-! ## runApp startup sequencing (core-utils.js)

runApp calls app.initScene() and chains the veil-hiding step and the first
call of animate on the returned promise; animate is what invokes
app.updateScene once per frame.  The promise chain and the frame loop are
modelled as a transition system whose guards encode exactly the sequencing
the source establishes: a .then callback runs only after the previous step
of the chain has completed, and initScene resolves only after all of its
sequentially awaited loads have completed. -/

/-- Observable startup state of runApp. -/
structure RunAppState where
  pendingLoads : ℕ
  initResolved : Bool
  veilHidden : Bool
  loopStarted : Bool
  updateSceneCalls : ℕ
deriving DecidableEq, Repr

/-- Before runApp starts: initScene has the given number of sequential
asynchronous loads still to perform, nothing has resolved, no frame ran. -/
def initialRunAppState (loads : ℕ) : RunAppState :=
  ⟨loads, false, false, false, 0⟩

/-- The events of runApp's startup, with the sequencing guards the source's
promise chain imposes. -/
inductive RunAppStep : RunAppState → RunAppState → Prop
  | loadCompletes (s : RunAppState) (h : 0 < s.pendingLoads) :
      RunAppStep s { s with pendingLoads := s.pendingLoads - 1 }
  | initResolves (s : RunAppState) (h : s.pendingLoads = 0)
      (h2 : s.initResolved = false) :
      RunAppStep s { s with initResolved := true }
  | veilHides (s : RunAppState) (h : s.initResolved = true)
      (h2 : s.veilHidden = false) :
      RunAppStep s { s with veilHidden := true }
  | loopStarts (s : RunAppState) (h : s.veilHidden = true)
      (h2 : s.loopStarted = false) :
      RunAppStep s { s with loopStarted := true }
  | frame (s : RunAppState) (h : s.loopStarted = true) :
      RunAppStep s { s with updateSceneCalls := s.updateSceneCalls + 1 }

/-- States runApp can reach when initScene performs the given number of
sequential asynchronous loads. -/
inductive RunAppReachable (loads : ℕ) : RunAppState → Prop
  | init : RunAppReachable loads (initialRunAppState loads)
  | step {s t : RunAppState} :
      RunAppReachable loads s → RunAppStep s t → RunAppReachable loads t

theorem runApp_sequencing_invariant {loads : ℕ} {s : RunAppState}
    (h : RunAppReachable loads s) :
    (0 < s.updateSceneCalls → s.loopStarted = true) ∧
    (s.loopStarted = true → s.veilHidden = true) ∧
    (s.veilHidden = true → s.initResolved = true) := by
  induction h with
  | init => simp [initialRunAppState]
  | step hr hst ih =>
    cases hst with
    | loadCompletes h => exact ih
    | initResolves h h2 => exact ⟨fun hc => (ih.1 hc), fun hl => ih.2.1 hl, fun _ => rfl⟩
    | veilHides h h2 => exact ⟨fun hc => ih.1 hc, fun _ => rfl, fun _ => h⟩
    | loopStarts h h2 => exact ⟨fun _ => rfl, fun _ => h, ih.2.2⟩
    | frame h => exact ⟨fun _ => h, ih.2.1, ih.2.2⟩

/-- C5: in every execution of runApp, whatever the number of sequential
asynchronous loads initScene performs, any reachable state in which
updateScene has been called at least once is a state in which initScene's
promise has already resolved: the frame loop starts only after initScene
completes. -/
theorem updateScene_after_initScene {loads : ℕ} {s : RunAppState}
    (h : RunAppReachable loads s) (hcalls : 0 < s.updateSceneCalls) :
    s.initResolved = true := by
  obtain ⟨h1, h2, h3⟩ := runApp_sequencing_invariant h
  exact h3 (h2 (h1 hcalls))

/-- Witness for C5: a concrete execution with two sequential loads, reaching
a state with one updateScene call, in which initResolved is true. -/
theorem updateScene_after_initScene_witness :
    (⟨0, true, true, true, 1⟩ : RunAppState).initResolved = true := by
  have r0 : RunAppReachable 2 (initialRunAppState 2) := RunAppReachable.init
  have r1 : RunAppReachable 2 ⟨1, false, false, false, 0⟩ :=
    RunAppReachable.step r0 (RunAppStep.loadCompletes (initialRunAppState 2) (by decide))
  have r2 : RunAppReachable 2 ⟨0, false, false, false, 0⟩ :=
    RunAppReachable.step r1 (RunAppStep.loadCompletes ⟨1, false, false, false, 0⟩ (by decide))
  have r3 : RunAppReachable 2 ⟨0, true, false, false, 0⟩ :=
    RunAppReachable.step r2 (RunAppStep.initResolves ⟨0, false, false, false, 0⟩ rfl rfl)
  have r4 : RunAppReachable 2 ⟨0, true, true, false, 0⟩ :=
    RunAppReachable.step r3 (RunAppStep.veilHides ⟨0, true, false, false, 0⟩ rfl rfl)
  have r5 : RunAppReachable 2 ⟨0, true, true, true, 0⟩ :=
    RunAppReachable.step r4 (RunAppStep.loopStarts ⟨0, true, true, false, 0⟩ rfl rfl)
  have r6 : RunAppReachable 2 ⟨0, true, true, true, 1⟩ :=
    RunAppReachable.step r5 (RunAppStep.frame ⟨0, true, true, true, 0⟩ rfl)
  exact updateScene_after_initScene r6 (by decide)

/-! ## Default updateScene installation (core-utils.js runApp) -/

/-- The slice of a runApp application object these claims need: updateScene
is optional (undefined in JS when absent); when present it transforms a
scene state given the frame's delta and elapsed times. -/
structure ThreeApp (σ : Type) where
  updateScene : Option (ℚ → ℚ → σ → σ)

/-- The statement in runApp: if app.updateScene is undefined, assign the
no-op (delta, elapsed) => { }, which leaves the scene state unchanged. -/
def installDefaultUpdate {σ : Type} (app : ThreeApp σ) : ThreeApp σ :=
  match app.updateScene with
  | none => { app with updateScene := some (fun _ _ s => s) }
  | some _ => app

/-- C10: after runApp's preparation step, app.updateScene is always defined,
and when the application supplied none, the installed function leaves the
scene state unchanged on every frame. -/
theorem runApp_installs_noop_updateScene {σ : Type} (app : ThreeApp σ) :
    ∃ f, (installDefaultUpdate app).updateScene = some f ∧
      (app.updateScene = none → ∀ delta elapsed s, f delta elapsed s = s) := by
  cases h : app.updateScene with
  | none =>
    refine ⟨fun _ _ s => s, ?_, fun _ _ _ _ => rfl⟩
    simp [installDefaultUpdate, h]
  | some g =>
    refine ⟨g, ?_, fun hn => absurd hn (by simp)⟩
    simp [installDefaultUpdate, h]

/-- Witness for C10: an application over state ℕ with no updateScene. -/
theorem runApp_installs_noop_updateScene_witness :
    ∃ f, (installDefaultUpdate (⟨none⟩ : ThreeApp ℕ)).updateScene = some f ∧
      ((⟨none⟩ : ThreeApp ℕ).updateScene = none → ∀ delta elapsed s, f delta elapsed s = s) :=
  runApp_installs_noop_updateScene ⟨none⟩

/-! ## Background-aspect cropping (common-utils maintainBgAspect) -/

/-- The slice of a scene that maintainBgAspect touches: whether a background
texture is assigned, and that texture's offset and repeat vectors. -/
structure BgScene where
  background : Bool
  offsetX : ℚ
  offsetY : ℚ
  repeatX : ℚ
  repeatY : ℚ
deriving DecidableEq, Repr

/-- maintainBgAspect from the source, with the window dimensions (read from
the DOM there) passed in as parameters.  When a background is assigned it
computes factor = (imgW / imgH) / (winW / winH) and overwrites the
background's offset and repeat componentwise with the factor > 1 horizontal
crop or the vertical crop. -/
def maintainBgAspect (s : BgScene) (imgW imgH winW winH : ℚ) : BgScene :=
  if s.background then
    let factor := imgW / imgH / (winW / winH)
    { s with
      offsetX := if 1 < factor then (1 - 1 / factor) / 2 else 0
      offsetY := if 1 < factor then 0 else (1 - factor) / 2
      repeatX := if 1 < factor then 1 / factor else 1
      repeatY := if 1 < factor then 1 else factor }
  else s

/-- C8: on a scene with a background, with factor = (imgW/imgH)/(winW/winH),
the cropping sets, when factor > 1, horizontal repeat 1/factor, horizontal
offset (1 - 1/factor)/2, vertical repeat 1 and vertical offset 0, and
otherwise the symmetric vertical crop; in particular factor = 2 yields
(repeat.x, offset.x, repeat.y, offset.y) = (0.5, 0.25, 1, 0) and
factor = 0.5 yields vertical repeat 0.5, vertical offset 0.25, horizontal
repeat 1 and horizontal offset 0. -/
theorem maintainBgAspect_cover_crop (s : BgScene) (imgW imgH winW winH : ℚ)
    (hbg : s.background = true) :
    ((1 < imgW / imgH / (winW / winH) →
        (maintainBgAspect s imgW imgH winW winH).repeatX = 1 / (imgW / imgH / (winW / winH)) ∧
        (maintainBgAspect s imgW imgH winW winH).offsetX =
          (1 - 1 / (imgW / imgH / (winW / winH))) / 2 ∧
        (maintainBgAspect s imgW imgH winW winH).repeatY = 1 ∧
        (maintainBgAspect s imgW imgH winW winH).offsetY = 0) ∧
      (¬ 1 < imgW / imgH / (winW / winH) →
        (maintainBgAspect s imgW imgH winW winH).repeatY = imgW / imgH / (winW / winH) ∧
        (maintainBgAspect s imgW imgH winW winH).offsetY =
          (1 - imgW / imgH / (winW / winH)) / 2 ∧
        (maintainBgAspect s imgW imgH winW winH).repeatX = 1 ∧
        (maintainBgAspect s imgW imgH winW winH).offsetX = 0)) ∧
    maintainBgAspect ⟨true, 0, 0, 0, 0⟩ 1600 400 800 400 = ⟨true, 1 / 4, 0, 1 / 2, 1⟩ ∧
    maintainBgAspect ⟨true, 0, 0, 0, 0⟩ 400 400 800 400 = ⟨true, 0, 1 / 4, 1, 1 / 2⟩ := by
  refine ⟨⟨fun hf => ?_, fun hf => ?_⟩, ?_, ?_⟩
  · simp [maintainBgAspect, hbg, hf]
  · simp [maintainBgAspect, hbg, hf]
  · rw [maintainBgAspect]
    norm_num
  · rw [maintainBgAspect]
    norm_num

/-- Witness for C8 at the spec's factor = 2 example (a 1600 x 400 image on
an 800 x 400 viewport). -/
theorem maintainBgAspect_cover_crop_witness :
    (maintainBgAspect ⟨true, 0, 0, 0, 0⟩ 1600 400 800 400).repeatX = 1 / 2 ∧
    (maintainBgAspect ⟨true, 0, 0, 0, 0⟩ 1600 400 800 400).offsetX = 1 / 4 := by
  have h := maintainBgAspect_cover_crop ⟨true, 0, 0, 0, 0⟩ 1600 400 800 400 rfl
  obtain ⟨⟨h1, -⟩, -, -⟩ := h
  have h2 := h1 (by norm_num)
  refine ⟨h2.1.trans (by norm_num), h2.2.1.trans (by norm_num)⟩

/-- C9: with the background flag and the image and viewport dimensions
unchanged, maintainBgAspect is idempotent: a second call recomputes and
assigns the same offsets and repeats, so the values do not drift. -/
theorem maintainBgAspect_idempotent (s : BgScene) (imgW imgH winW winH : ℚ) :
    maintainBgAspect (maintainBgAspect s imgW imgH winW winH) imgW imgH winW winH =
      maintainBgAspect s imgW imgH winW winH := by
  by_cases hb : s.background <;>
    simp [maintainBgAspect, hb]

end ThreejsEarth
